import Mathlib

/-!
Shallow embedding of the flight-delay ETL pipeline
(join_data_sources.py, extract_features_opensky_data.py,
get_faa_flight_reg.py, and the shared-notebook copies).

Conventions of the embedding:
* instants are integers (minutes after the epoch for the flight/weather
  code, seconds after the epoch for the telemetry code);
* nullable cells (pandas NaN / NaT) are `Option` values;
* float arithmetic is modelled over `ℚ` (every constant in the source is
  exactly representable);
* a pandas Series operation becomes a `List` operation, row order
  preserved.
-/

/-! ## Temporal normalizer (join_data_sources.py, lines 36-57) -/

/-- Embeds `hhmm_to_minutes`: the source zero-pads the decimal string of
the value to at least four characters, reads the first two characters as
hours and the remainder as minutes (`s = str(int(float(hhmm))).zfill(4);
hh = int(s[:2]); mm = int(s[2:])`).  For `n < 10000` the split point is
at 10^2; for longer numbers the minute part keeps all but the two
leading digits. -/
def hhmm_to_minutes (n : Nat) : Nat :=
  let p := if n < 10000 then 100 else 10 ^ (Nat.log 10 n - 1)
  60 * (n / p) + n % p

/-- A civil time zone, modelled as the set of UTC offsets (in minutes)
that are valid readings of a naive local instant: one offset for a
normal time, none for a nonexistent time (spring-forward gap), two for
an ambiguous time (fall-back overlap). -/
structure TimeZoneMap where
  offsets : Int → List Int

/-- Embeds `Series.dt.tz_localize(local_tz, nonexistent="NaT",
ambiguous="NaT")` followed by `tz_convert("UTC")` on one cell: the
result is a UTC instant only when exactly one offset applies, and the
NaT sentinel otherwise. -/
def tz_localize (tz : TimeZoneMap) (naive : Int) : Option Int :=
  match tz.offsets naive with
  | [o] => some (naive - o)
  | _ => none

/-- Embeds `build_local_ts` on one row: `FlightDate` parsed with
`errors="coerce"` (so `none` when unparseable), the HHMM cell likewise
nullable, `ts_naive = d + to_timedelta(mins)` (NaT-propagating), then
the localization above.  The naive local instant is in minutes:
1440 * day + minutes-after-midnight. -/
def build_local_ts (flight_date : Option Int) (hhmm : Option Nat)
    (tz : TimeZoneMap) : Option Int :=
  match flight_date, hhmm with
  | some d, some h => tz_localize tz (1440 * d + (hhmm_to_minutes h : Int))
  | _, _ => none

/-- Calendar day of a naive local instant given in minutes. -/
def local_day (t : Int) : Int := t.fdiv 1440

/-- A trivial zone whose offset is always the single value 0; used to
evaluate the normalizer where daylight-saving plays no role. -/
def utcTz : TimeZoneMap := ⟨fun _ => [0]⟩

/-- A zone in which every naive instant is ambiguous (two offsets,
as in a fall-back overlap hour). -/
def ambTz : TimeZoneMap := ⟨fun _ => [-300, -240]⟩

/-! ## Weather severity (join_data_sources.py, lines 64-77) -/

/-- Embeds `Series.clip(lo, hi)` on one cell. -/
def clipQ (x lo hi : ℚ) : ℚ := min (max x lo) hi

/-- Embeds `compute_weather_severity` on one row.  Each argument is the
cell after `pd.to_numeric(errors="coerce")`, so `none` stands for a
missing or unparseable reading; the source then applies
`fillna(0) / fillna(10).clip(0,10) / fillna(0) / fillna(99999)` and
computes `(wind/30) + (1 - vis/10) + (p01i>0) + (ceiling<1000)`. -/
def compute_weather_severity (wind_knots vis_miles precip_in ceiling_ft :
    Option ℚ) : ℚ :=
  let wind := wind_knots.getD 0
  let vis := clipQ (vis_miles.getD 10) 0 10
  let p01i := precip_in.getD 0
  let ceil := ceiling_ft.getD 99999
  let precip_flag : ℚ := if 0 < p01i then 1 else 0
  let low_ceiling_flag : ℚ := if ceil < 1000 then 1 else 0
  wind / 30 + (1 - vis / 10) + precip_flag + low_ceiling_flag

/-- The severity formula exactly as the specification words it:
`(wind/30) + (1 − clamp(visibility,0,10)/10) + (precipitation>0 ? 1 : 0)
+ (ceiling<1000 ? 1 : 0)` with defaults wind=0, visibility=10,
precipitation=0, ceiling=99999 substituted for null fields. -/
def severity_spec (wind vis precip ceiling : Option ℚ) : ℚ :=
  wind.getD 0 / 30 + (1 - min (max (vis.getD 10) 0) 10 / 10)
    + (if precip.getD 0 > 0 then (1 : ℚ) else 0)
    + (if ceiling.getD 99999 < 1000 then (1 : ℚ) else 0)

/-! ## Nearest-time weather join (join_data_sources.py, lines 60-183) -/

/-- Embeds `normalize_upper` on one cell: `astype(str)` renders a
missing cell as the string nan (uppercased to NAN by `str.upper()`),
and a present cell is stripped of surrounding whitespace
(`str.strip()`) and uppercased (`str.upper()`); both steps are written
over the character list of the string. -/
def normalize_upper (s : Option String) : String :=
  match s with
  | none => "NAN"
  | some v =>
      ⟨((v.data.dropWhile Char.isWhitespace).reverse.dropWhile
          Char.isWhitespace).reverse.map Char.toUpper⟩

/-- One weather observation row as `attach_weather_nearest` receives it
(station, `valid_ts`, and the sensor columns kept by `prep_weather`). -/
structure WeatherObs where
  station : Option String
  valid_ts : Option Int
  tmpf : Option ℚ
  sknt : Option ℚ
  vsby : Option ℚ
  p01i : Option ℚ
  skyl1 : Option ℚ
deriving DecidableEq, Repr

/-- One flight row, reduced to the two cells `attach_weather_nearest`
reads: the airport-code column used as station key and the scheduled
UTC instant column used as join time (NaT = `none`). -/
structure FlightRow where
  station : Option String
  ts : Option Int
deriving DecidableEq, Repr

/-- The key-group of an anchor with station key `s`: the observations
whose normalized station equals `s` and whose instant is present,
paired with that instant (the right frame after `dropna`). -/
def candidates (weather : List WeatherObs) (s : String) :
    List (Int × WeatherObs) :=
  weather.filterMap (fun o =>
    o.valid_ts.bind (fun t' =>
      if normalize_upper o.station = s then some (t', o) else none))

/-- One step of the nearest-candidate scan of `merge_asof(...,
direction="nearest")`: keep the candidate at strictly smaller absolute
distance, and at equal distance the earlier instant (the library
resolves a tie toward the backward candidate). -/
def choose_nearer (t : Int) (b : Option (Int × WeatherObs))
    (c : Int × WeatherObs) : Option (Int × WeatherObs) :=
  match b with
  | none => some c
  | some b' =>
      if |c.1 - t| < |b'.1 - t| ∨ (|c.1 - t| = |b'.1 - t| ∧ c.1 < b'.1)
      then some c else some b'

/-- The nearest candidate of a key-group, before the tolerance test. -/
def nearest_in (t : Int) (cs : List (Int × WeatherObs)) :
    Option (Int × WeatherObs) :=
  cs.foldl (choose_nearer t) none

/-- Embeds one anchor lookup of `pd.merge_asof(left, right, on="ts",
by="station", direction="nearest", tolerance=tol)`: the nearest
same-station observation, or null when its distance exceeds the
tolerance (or the key-group is empty). -/
def merge_asof_nearest (tol : Int) (weather : List WeatherObs)
    (s : String) (t : Int) : Option WeatherObs :=
  match nearest_in t (candidates weather s) with
  | none => none
  | some c => if |c.1 - t| ≤ tol then some c.2 else none

/-- One output row of `attach_weather_nearest`: the untouched flight
row, the matched observation (null when unmatched or the join key was
NaT), and the derived per-prefix columns of lines 157-173. -/
structure EnrichedRow where
  flight : FlightRow
  matched : Option WeatherObs
  tmpf : Option ℚ
  wind : Option ℚ
  visibility : Option ℚ
  precip_flag : Int
  ceiling_ft : Option ℚ
  low_ceiling_flag : Int
  weather_severity : ℚ
deriving DecidableEq, Repr

/-- Embeds `attach_weather_nearest` on one flight row: rows whose join
instant is NaT are dropped from the asof frame and re-enter through the
left merge on `_row_id` with null weather; the derived columns follow
lines 157-173 (`p01i` refilled with 0, flags from the filled values,
severity from the prefixed columns). -/
def attach_row (tol : Int) (weather : List WeatherObs) (r : FlightRow) :
    EnrichedRow :=
  let m : Option WeatherObs :=
    match r.ts with
    | some t => merge_asof_nearest tol weather (normalize_upper r.station) t
    | none => none
  let tmpf := m.bind (·.tmpf)
  let wind := m.bind (·.sknt)
  let vis := m.bind (·.vsby)
  let p01i : ℚ := (m.bind (·.p01i)).getD 0
  let ceil := m.bind (·.skyl1)
  { flight := r
    matched := m
    tmpf := tmpf
    wind := wind
    visibility := vis
    precip_flag := if 0 < p01i then 1 else 0
    ceiling_ft := ceil
    low_ceiling_flag := if (ceil.getD 99999) < 1000 then 1 else 0
    weather_severity := compute_weather_severity wind vis (some p01i) ceil }

/-- Embeds `attach_weather_nearest` on the whole flights frame: one
output row per input row, in input order. -/
def attach_weather_nearest (tol : Int) (flights : List FlightRow)
    (weather : List WeatherObs) : List EnrichedRow :=
  flights.map (attach_row tol weather)

/-! ## Windowed feature aggregator (extract_features_opensky_data.py,
lines 29-53, and its shared-notebook copy) -/

/-- One telemetry row after the cleaning steps, restricted to the one
feature column a `(field, statistic, window)` triple reads.  A `none`
value is a cell that is still missing after `ffill` (a leading null). -/
structure StateRow where
  icao24 : String
  time : Int
  value : Option ℚ
deriving DecidableEq, Repr

/-- Start of the resample bin that contains instant `t` (seconds) for
bin width `w` (seconds).  `resample` anchors bins at `origin=start_day`,
midnight of the first sample's day; an epoch midnight is a multiple of
86400 s, which both source widths (10 s and 60 s) divide, so the bins
are the intervals between consecutive multiples of `w`. -/
def bin_start (w t : Int) : Int := w * t.fdiv w

/-- The cells of the feature column over the rows of entity `e` that
fall into the same resample bin as instant `t`: the group that
`df.groupby(level=0)[col].resample(rule, level=1)` forms around a row. -/
def bin_members (rows : List StateRow) (e : String) (w t : Int) :
    List (Option ℚ) :=
  (rows.filter (fun r =>
    decide (r.icao24 = e ∧ bin_start w r.time = bin_start w t))).map
    (fun r => r.value)

/-- The cells of the feature column over the rows of entity `e` whose
instant lies in the half-open interval from `lo` (inclusive) to `hi`
(exclusive); used to restate bin membership by explicit bounds. -/
def window_members (rows : List StateRow) (e : String) (lo hi : Int) :
    List (Option ℚ) :=
  (rows.filter (fun r =>
    decide (r.icao24 = e ∧ lo ≤ r.time ∧ r.time < hi))).map
    (fun r => r.value)

/-- Embeds the pandas `count` statistic: the number of non-null cells. -/
def count_stat (vs : List (Option ℚ)) : Nat := (vs.filterMap id).length

/-- Embeds the square of the pandas `std` statistic (sample variance,
`ddof=1`, nulls skipped): null exactly when fewer than two non-null
samples exist, which is also exactly when `std` itself is null; the
square keeps the value inside `ℚ` (the standard deviation is its square
root and is null for precisely the same inputs). -/
def sample_var (vs : List (Option ℚ)) : Option ℚ :=
  let xs := vs.filterMap id
  if xs.length < 2 then none
  else
    let n : ℚ := xs.length
    let m := xs.sum / n
    some ((xs.map (fun x => (x - m) ^ 2)).sum / (n - 1))

/-- Embeds `df[new_col] = rs.transform("count")` for one feature column
and bin width `w`: each row receives the count over its own entity and
resample bin. -/
def resample_transform_count (w : Int) (rows : List StateRow) : List Nat :=
  rows.map (fun r => count_stat (bin_members rows r.icao24 w r.time))

/-- Embeds `df[new_col] = rs.transform("std")` for one feature column
and bin width `w`, squared (see `sample_var`): each row receives the
statistic over its own entity and resample bin, null when the bin holds
fewer than two non-null samples. -/
def resample_transform_var (w : Int) (rows : List StateRow) : List (Option ℚ) :=
  rows.map (fun r => sample_var (bin_members rows r.icao24 w r.time))

/-! ## Deduplication (drop_duplicates) -/

/-- Embeds `DataFrame.drop_duplicates(subset=key)` with the default
`keep="first"`: a row is kept when its key has not been seen earlier;
`seen` accumulates the keys already emitted. -/
def dedup_first_by {α κ : Type} (key : α → κ) [DecidableEq κ] :
    List κ → List α → List α
  | _, [] => []
  | seen, r :: rest =>
      if key r ∈ seen then dedup_first_by key seen rest
      else r :: dedup_first_by key (key r :: seen) rest

/-- Embeds `DataFrame.drop_duplicates(subset=key, keep="last")`: a row
is kept when no later row carries the same key. -/
def dedup_last_by {α κ : Type} (key : α → κ) [DecidableEq κ] :
    List α → List α
  | [] => []
  | r :: rest =>
      if ∃ r' ∈ rest, key r' = key r then dedup_last_by key rest
      else r :: dedup_last_by key rest

/-! ## Telemetry sort + dedup (extract_features_opensky_data.py,
lines 11-13) -/

/-- The dedup grain of the telemetry frame: (entity, instant). -/
def state_key (r : StateRow) : String × Int := (r.icao24, r.time)

/-- The comparison behind `df.sort_values(["icao24", "time"])`:
lexicographic by entity, then instant; the pandas multi-column sort is
a stable lexsort. -/
def stateLe (a b : StateRow) : Prop :=
  a.icao24 < b.icao24 ∨ (a.icao24 = b.icao24 ∧ a.time ≤ b.time)

instance decStateLe : DecidableRel stateLe := fun a b =>
  decidable_of_iff
    (a.icao24.data < b.icao24.data ∨ (a.icao24 = b.icao24 ∧ a.time ≤ b.time))
    (or_congr_left String.lt_iff_toList_lt.symm)

/-- Embeds `df.sort_values(["icao24","time"]);
df.drop_duplicates(subset=["icao24","time"])`: stable sort by the
grain, then keep the first row of each (entity, instant) pair. -/
def sort_dedup (rows : List StateRow) : List StateRow :=
  dedup_first_by state_key [] (List.insertionSort stateLe rows)

/-! ## Registry dimension dedup (get_faa_flight_reg.py, lines 296-300) -/

/-- One row of the FAA aircraft dimension, restricted to the cells the
dedup reads plus one payload column to tell records apart. -/
structure RegRecord where
  icao24 : String
  last_action_date : Option Int
  n_number : String
deriving DecidableEq, Repr

/-- The ordering `sort_values(..., na_position="last")` uses on the
recency column: dates ascend, and a missing date sorts after every
present date. -/
def dateLe (x y : Option Int) : Prop :=
  match x, y with
  | none, none => True
  | none, some _ => False
  | some _, none => True
  | some u, some v => u ≤ v

instance decDateLe : DecidableRel dateLe := fun x y =>
  match x, y with
  | none, none => isTrue trivial
  | none, some _ => isFalse (fun h => h)
  | some _, none => isTrue trivial
  | some u, some v => inferInstanceAs (Decidable (u ≤ v))

/-- The comparison behind
`df.sort_values(["icao24", "last_action_date"], na_position="last")`. -/
def regLe (a b : RegRecord) : Prop :=
  a.icao24 < b.icao24 ∨
    (a.icao24 = b.icao24 ∧ dateLe a.last_action_date b.last_action_date)

instance decRegLe : DecidableRel regLe := fun a b =>
  decidable_of_iff (a.icao24.data < b.icao24.data ∨
      (a.icao24 = b.icao24 ∧ dateLe a.last_action_date b.last_action_date))
    (or_congr_left String.lt_iff_toList_lt.symm)

/-- Embeds lines 296-300 of get_faa_flight_reg.py: sort ascending by
(icao24, last_action_date) with missing dates last, then
`drop_duplicates(subset=["icao24"], keep="last")`. -/
def faa_dedup (rows : List RegRecord) : List RegRecord :=
  dedup_last_by (fun r => r.icao24) (List.insertionSort regLe rows)

/-! ## Registry join (join_data_sources.py, lines 230-266) -/

/-- One registry row as `attach_registry` reads it: the join key column
and the registry-sourced columns it brings in (two of them stand for
the whole `registry_cols` list). -/
structure RegRow where
  n_number : Option String
  aircraft_type : Option String
  num_seats : Option ℚ
deriving DecidableEq, Repr

/-- One flight row, reduced to the cell `attach_registry` reads. -/
structure FlightRegRow where
  tail_number : Option String
deriving DecidableEq, Repr

/-- One flight row's registry lookup inside `attach_registry`:
normalize both keys with `normalize_upper`, reduce the registry to one
row per `n_number` (`drop_duplicates`, keep first), and return the
unique row whose key equals the flight's normalized tail number, or
null when none matches. -/
def registry_lookup (reg : List RegRow) (f : FlightRegRow) :
    Option RegRow :=
  let regn := reg.map (fun g =>
    { g with n_number := some (normalize_upper g.n_number) })
  let reg_small := dedup_first_by (fun g => g.n_number) [] regn
  reg_small.find? (fun g =>
    decide (g.n_number = some (normalize_upper f.tail_number)))

/-- Embeds `attach_registry`: the left-merge pairs each flight row, in
order, with its registry lookup (null when the key is unmatched). -/
def attach_registry (flights : List FlightRegRow) (reg : List RegRow) :
    List (FlightRegRow × Option RegRow) :=
  flights.map (fun f => (f, registry_lookup reg f))

/-! ## Concrete inputs used to evaluate the definitions -/

/-- Telemetry scenario of the windowed-aggregator claims: one entity,
three samples 5 s apart. -/
def c2rows : List StateRow :=
  [⟨"a1b2c3", 0, some 120⟩, ⟨"a1b2c3", 5, some 125⟩,
   ⟨"a1b2c3", 10, some 130⟩]

/-- A single-sample entity whose feature cell is missing (a leading
null that `ffill` cannot fill). -/
def c8rows : List StateRow := [⟨"deadbe", 0, none⟩]

/-- A single-sample entity whose feature cell is present. -/
def c8rows2 : List StateRow := [⟨"deadbe", 0, some 7⟩]

/-- Two telemetry records at the same (entity, instant) grain written
in this order; their feature cells differ. -/
def c3rows : List StateRow := [⟨"a1b2c3", 0, some 1⟩, ⟨"a1b2c3", 0, some 2⟩]

/-- Two registry records for one transponder code: a dated one and a
later-written one with the recency cell missing. -/
def c7rows : List RegRecord :=
  [⟨"a1b2c3", some 5, "N100AA"⟩, ⟨"a1b2c3", none, "N200BB"⟩]

/-- One weather observation at instant 100 for station BWI. -/
def c4weather : List WeatherObs :=
  [⟨some "BWI", some 100, some 70, some 9, some 10, some 0, some 25000⟩]

/-- A flight anchored at instant 130 with station key BWI. -/
def c4flight : FlightRow := ⟨some "BWI", some 130⟩

/-- A flight row whose station cell is missing, and a weather row whose
station cell is missing, at the same instant. -/
def c10flights : List FlightRow := [⟨none, some 0⟩]

/-- See `c10flights`. -/
def c10weather : List WeatherObs :=
  [⟨none, some 0, some 50, some 5, some 10, some 0, none⟩]

/-- One flight whose tail number matches no registry row. -/
def c6flights : List FlightRegRow := [⟨some "N123AB"⟩]

/-- See `c6flights`. -/
def c6reg : List RegRow := [⟨some "N999ZZ", some "Fixed Wing Single", some 180⟩]

/-! ## Order facts for the sort comparisons -/

theorem dateLe_refl (x : Option Int) : dateLe x x := by
  cases x <;> simp [dateLe]

theorem dateLe_total (x y : Option Int) : dateLe x y ∨ dateLe y x := by
  cases x <;> cases y <;> simp [dateLe] <;> exact le_total _ _

theorem dateLe_trans {x y z : Option Int} (h1 : dateLe x y)
    (h2 : dateLe y z) : dateLe x z := by
  cases x <;> cases y <;> cases z <;> simp_all [dateLe] <;> omega

instance totalRegLe : IsTotal RegRecord regLe := by
  constructor
  intro a b
  rcases lt_trichotomy a.icao24 b.icao24 with h | h | h
  · exact Or.inl (Or.inl h)
  · rcases dateLe_total a.last_action_date b.last_action_date with hd | hd
    · exact Or.inl (Or.inr ⟨h, hd⟩)
    · exact Or.inr (Or.inr ⟨h.symm, hd⟩)
  · exact Or.inr (Or.inl h)

instance transRegLe : IsTrans RegRecord regLe := by
  constructor
  intro a b c hab hbc
  rcases hab with h1 | ⟨h1, hd1⟩
  · rcases hbc with h2 | ⟨h2, _⟩
    · exact Or.inl (h1.trans h2)
    · exact Or.inl (h2 ▸ h1)
  · rcases hbc with h2 | ⟨h2, hd2⟩
    · exact Or.inl (h1 ▸ h2)
    · exact Or.inr ⟨h1.trans h2, dateLe_trans hd1 hd2⟩

/-! ## Helper lemmas: deduplication -/

theorem dedup_first_by_filter {α κ : Type} (key : α → κ) [DecidableEq κ]
    (k : κ) :
    ∀ (l : List α) (seen : List κ),
      (dedup_first_by key seen l).filter (fun r => decide (key r = k)) =
        if k ∈ seen then []
        else (l.filter (fun r => decide (key r = k))).take 1
  | [], seen => by
      by_cases hk : k ∈ seen <;> simp [dedup_first_by, hk]
  | r :: rest, seen => by
      by_cases hseen : key r ∈ seen
      · rw [dedup_first_by, if_pos hseen,
          dedup_first_by_filter key k rest seen]
        by_cases hk : k ∈ seen
        · simp [hk]
        · have hne : ¬(key r = k) := fun he => hk (he ▸ hseen)
          simp [hk, List.filter_cons, hne]
      · rw [dedup_first_by, if_neg hseen]
        by_cases hrk : key r = k
        · have hk : k ∉ seen := fun hm => hseen (hrk ▸ hm)
          have hmem : k ∈ key r :: seen := by
            simp [hrk]
          rw [List.filter_cons, if_pos (by simp [hrk]),
            dedup_first_by_filter key k rest (key r :: seen),
            if_pos hmem, if_neg hk, List.filter_cons,
            if_pos (by simp [hrk])]
          simp
        · have hiff : (k ∈ key r :: seen) ↔ (k ∈ seen) := by
            constructor
            · intro hm
              rcases List.mem_cons.mp hm with he | hm
              · exact absurd he.symm hrk
              · exact hm
            · exact fun hm => List.mem_cons_of_mem _ hm
          have hfc : ∀ l' : List α,
              (r :: l').filter (fun x => decide (key x = k)) =
                l'.filter (fun x => decide (key x = k)) := by
            intro l'
            rw [List.filter_cons, if_neg (by simp [hrk])]
          rw [hfc, hfc, dedup_first_by_filter key k rest (key r :: seen)]
          simp only [hiff]

theorem dedup_first_by_subset {α κ : Type} (key : α → κ) [DecidableEq κ] :
    ∀ (l : List α) (seen : List κ) (r : α),
      r ∈ dedup_first_by key seen l → r ∈ l
  | [], _, _, h => by simp [dedup_first_by] at h
  | x :: rest, seen, r, h => by
      rw [dedup_first_by] at h
      by_cases hs : key x ∈ seen
      · rw [if_pos hs] at h
        exact List.mem_cons_of_mem x (dedup_first_by_subset key rest seen r h)
      · rw [if_neg hs] at h
        rcases List.mem_cons.mp h with h | h
        · exact h ▸ List.mem_cons_self x rest
        · exact List.mem_cons_of_mem x
            (dedup_first_by_subset key rest (key x :: seen) r h)

theorem dedup_last_by_filter {α κ : Type} (key : α → κ) [DecidableEq κ]
    (k : κ) :
    ∀ l : List α,
      (dedup_last_by key l).filter (fun r => decide (key r = k)) =
        ((l.filter (fun r => decide (key r = k))).getLast?).toList
  | [] => by simp [dedup_last_by]
  | r :: rest => by
      by_cases hany : ∃ r' ∈ rest, key r' = key r
      · rw [dedup_last_by, if_pos hany, dedup_last_by_filter key k rest]
        by_cases hrk : key r = k
        · obtain ⟨r', hr', hkey⟩ := hany
          have hmem : r' ∈ rest.filter (fun x => decide (key x = k)) :=
            List.mem_filter.mpr ⟨hr', by simp [hkey, hrk]⟩
          rw [List.filter_cons, if_pos (by simp [hrk])]
          rcases hrf : rest.filter (fun x => decide (key x = k)) with
            _ | ⟨b, l'⟩
          · rw [hrf] at hmem
            simp at hmem
          · rw [List.getLast?_cons_cons]
        · rw [List.filter_cons, if_neg (by simp [hrk])]
      · rw [dedup_last_by, if_neg hany]
        by_cases hrk : key r = k
        · have hempty : rest.filter (fun x => decide (key x = k)) = [] := by
            rw [List.filter_eq_nil_iff]
            intro a ha
            simp only [decide_eq_true_eq]
            intro hk'
            exact hany ⟨a, ha, by rw [hk', ← hrk]⟩
          simp [List.filter_cons, hrk, dedup_last_by_filter key k rest, hempty]
        · simp [List.filter_cons, hrk, dedup_last_by_filter key k rest]

/-! ## Helper lemmas: stability of the sort -/

theorem filter_orderedInsert_pos {α : Type} (le : α → α → Prop)
    [DecidableRel le] (p : α → Bool) (a : α) (hpa : p a = true) :
    ∀ l : List α, (∀ b ∈ l, p b = true → le a b) →
      (List.orderedInsert le a l).filter p = a :: l.filter p
  | [], _ => by simp [hpa]
  | b :: l, hle => by
      rw [List.orderedInsert]
      by_cases hab : le a b
      · rw [if_pos hab, List.filter_cons, if_pos hpa]
      · rw [if_neg hab]
        have hpb : p b = false := by
          cases hb : p b
          · rfl
          · exact absurd (hle b (List.mem_cons_self b l) hb) hab
        rw [List.filter_cons, if_neg (by simp [hpb]), List.filter_cons,
          if_neg (by simp [hpb])]
        exact filter_orderedInsert_pos le p a hpa l
          (fun c hc hpc => hle c (List.mem_cons_of_mem b hc) hpc)

theorem filter_orderedInsert_neg {α : Type} (le : α → α → Prop)
    [DecidableRel le] (p : α → Bool) (a : α) (hpa : p a = false) :
    ∀ l : List α, (List.orderedInsert le a l).filter p = l.filter p
  | [] => by simp [hpa]
  | b :: l => by
      rw [List.orderedInsert]
      by_cases hab : le a b
      · rw [if_pos hab, List.filter_cons, if_neg (by simp [hpa])]
      · rw [if_neg hab, List.filter_cons,
          filter_orderedInsert_neg le p a hpa l, List.filter_cons]

theorem filter_insertionSort {α : Type} (le : α → α → Prop)
    [DecidableRel le] (p : α → Bool) :
    ∀ l : List α, (∀ x ∈ l, ∀ y ∈ l, p x = true → p y = true → le x y) →
      (List.insertionSort le l).filter p = l.filter p
  | [], _ => rfl
  | a :: l, hcomp => by
      rw [List.insertionSort]
      by_cases hpa : p a
      · rw [filter_orderedInsert_pos le p a hpa (List.insertionSort le l)
          (fun b hb hpb => hcomp a (List.mem_cons_self a l) b
            (List.mem_cons_of_mem a ((List.mem_insertionSort le).mp hb))
            hpa hpb)]
        rw [filter_insertionSort le p l
          (fun x hx y hy hpx hpy => hcomp x (List.mem_cons_of_mem a hx) y
            (List.mem_cons_of_mem a hy) hpx hpy)]
        rw [List.filter_cons, if_pos hpa]
      · rw [filter_orderedInsert_neg le p a (by simpa using hpa)
          (List.insertionSort le l)]
        rw [filter_insertionSort le p l
          (fun x hx y hy hpx hpy => hcomp x (List.mem_cons_of_mem a hx) y
            (List.mem_cons_of_mem a hy) hpx hpy)]
        rw [List.filter_cons, if_neg (by simpa using hpa)]

/-! ## Helper lemmas: the nearest-candidate scan -/

theorem choose_nearer_isSome (t : Int) (b : Option (Int × WeatherObs))
    (c : Int × WeatherObs) : ∃ x, choose_nearer t b c = some x := by
  cases b with
  | none => exact ⟨c, rfl⟩
  | some b' =>
      rw [choose_nearer]
      by_cases h : |c.1 - t| < |b'.1 - t| ∨
          (|c.1 - t| = |b'.1 - t| ∧ c.1 < b'.1)
      · exact ⟨c, if_pos h⟩
      · exact ⟨b', if_neg h⟩

theorem choose_nearer_mem {t : Int} {b : Option (Int × WeatherObs)}
    {c x : Int × WeatherObs} (h : choose_nearer t b c = some x) :
    x = c ∨ b = some x := by
  cases b with
  | none =>
      rw [choose_nearer] at h
      exact Or.inl (Option.some.inj h).symm
  | some b' =>
      rw [choose_nearer] at h
      by_cases hc : |c.1 - t| < |b'.1 - t| ∨
          (|c.1 - t| = |b'.1 - t| ∧ c.1 < b'.1)
      · rw [if_pos hc] at h
        exact Or.inl (Option.some.inj h).symm
      · rw [if_neg hc] at h
        exact Or.inr h

theorem choose_nearer_le_cand {t : Int} {b : Option (Int × WeatherObs)}
    {c x : Int × WeatherObs} (h : choose_nearer t b c = some x) :
    |x.1 - t| ≤ |c.1 - t| := by
  cases b with
  | none =>
      rw [choose_nearer] at h
      rw [← Option.some.inj h]
  | some b' =>
      rw [choose_nearer] at h
      by_cases hc : |c.1 - t| < |b'.1 - t| ∨
          (|c.1 - t| = |b'.1 - t| ∧ c.1 < b'.1)
      · rw [if_pos hc] at h
        rw [← Option.some.inj h]
      · rw [if_neg hc] at h
        rw [← Option.some.inj h]
        push_neg at hc
        exact hc.1

theorem choose_nearer_le_acc {t : Int} {b' : Option (Int × WeatherObs)}
    {bb c x : Int × WeatherObs} (hb : b' = some bb)
    (h : choose_nearer t b' c = some x) : |x.1 - t| ≤ |bb.1 - t| := by
  subst hb
  rw [choose_nearer] at h
  by_cases hc : |c.1 - t| < |bb.1 - t| ∨
      (|c.1 - t| = |bb.1 - t| ∧ c.1 < bb.1)
  · rw [if_pos hc] at h
    rw [← Option.some.inj h]
    rcases hc with hc | hc
    · exact hc.le
    · exact hc.1.le
  · rw [if_neg hc] at h
    rw [← Option.some.inj h]


theorem foldl_nearest_spec (t : Int) :
    ∀ (cs : List (Int × WeatherObs)) (acc : Option (Int × WeatherObs))
      (x : Int × WeatherObs), cs.foldl (choose_nearer t) acc = some x →
        (acc = some x ∨ x ∈ cs)
        ∧ (∀ b, acc = some b → |x.1 - t| ≤ |b.1 - t|)
        ∧ (∀ c ∈ cs, |x.1 - t| ≤ |c.1 - t|)
  | [], acc, x, h => by
      rw [List.foldl_nil] at h
      refine ⟨Or.inl h, fun b hb => ?_, fun c hc => absurd hc (by simp)⟩
      have hxb : x = b := Option.some.inj (h.symm.trans hb)
      exact hxb ▸ le_refl _
  | c :: cs, acc, x, h => by
      rw [List.foldl_cons] at h
      obtain ⟨hmem, hacc, htail⟩ := foldl_nearest_spec t cs _ x h
      obtain ⟨y, hy⟩ := choose_nearer_isSome t acc c
      refine ⟨?_, fun b hb => ?_, fun d hd => ?_⟩
      · rcases hmem with hm | hm
        · rcases choose_nearer_mem hm with he | he
          · exact Or.inr (he ▸ List.mem_cons_self c cs)
          · exact Or.inl he
        · exact Or.inr (List.mem_cons_of_mem c hm)
      · exact le_trans (hacc y hy) (choose_nearer_le_acc hb hy)
      · rcases List.mem_cons.mp hd with he | hm
        · exact he ▸ le_trans (hacc y hy) (choose_nearer_le_cand hy)
        · exact htail d hm

theorem foldl_nearest_none (t : Int) :
    ∀ (cs : List (Int × WeatherObs)) (acc : Option (Int × WeatherObs)),
      cs.foldl (choose_nearer t) acc = none → acc = none ∧ cs = []
  | [], acc, h => ⟨h, rfl⟩
  | c :: cs, acc, h => by
      rw [List.foldl_cons] at h
      obtain ⟨h1, _⟩ := foldl_nearest_none t cs _ h
      obtain ⟨y, hy⟩ := choose_nearer_isSome t acc c
      rw [hy] at h1
      exact absurd h1 (by simp)

/-! ## Helper lemmas: sorted lists and their last element -/

theorem pairwise_rel_getLast {α : Type} {R : α → α → Prop} :
    ∀ {l : List α}, l.Pairwise R → ∀ {s : α}, l.getLast? = some s →
      ∀ a ∈ l, a = s ∨ R a s
  | [], _, s, hs, a, ha => by simp at ha
  | [x], _, s, hs, a, ha => by
      simp at hs ha
      exact Or.inl (ha.trans hs)
  | x :: y :: l, hp, s, hs, a, ha => by
      rw [List.getLast?_cons_cons] at hs
      rcases List.mem_cons.mp ha with he | hm
      · have hsmem : s ∈ y :: l := List.mem_of_getLast?_eq_some hs
        exact Or.inr (he ▸ (List.pairwise_cons.mp hp).1 s hsmem)
      · exact pairwise_rel_getLast (List.pairwise_cons.mp hp).2 hs a hm

/-! ## Helper lemmas: resample bins as intervals -/

theorem bin_start_eq_iff {w : Int} (hw : 0 < w) (t t' : Int) :
    bin_start w t' = bin_start w t ↔
      bin_start w t ≤ t' ∧ t' < bin_start w t + w := by
  unfold bin_start
  rw [Int.fdiv_eq_ediv _ hw.le, Int.fdiv_eq_ediv _ hw.le]
  constructor
  · intro h
    have h1 := Int.ediv_add_emod t' w
    have h2 := Int.emod_nonneg t' (ne_of_gt hw)
    have h3 := Int.emod_lt_of_pos t' hw
    constructor
    · rw [← h]
      linarith
    · rw [← h]
      linarith
  · rintro ⟨hlo, hhi⟩
    have hle : t / w ≤ t' / w := by
      rw [Int.le_ediv_iff_mul_le hw]
      calc t / w * w = w * (t / w) := mul_comm _ _
        _ ≤ t' := hlo
    have hlt : t' / w < t / w + 1 := by
      rw [Int.ediv_lt_iff_lt_mul hw]
      calc t' < w * (t / w) + w := hhi
        _ = (t / w + 1) * w := by ring
    have : t' / w = t / w := le_antisymm (Int.lt_add_one_iff.mp hlt) hle
    rw [this]

theorem bin_members_eq_window {w : Int} (hw : 0 < w)
    (rows : List StateRow) (e : String) (t : Int) :
    bin_members rows e w t =
      window_members rows e (bin_start w t) (bin_start w t + w) := by
  unfold bin_members window_members
  congr 1
  apply List.filter_congr
  intro a _
  exact decide_eq_decide.mpr
    (and_congr_right fun _ => bin_start_eq_iff hw t a.time)

/-! ## Claim theorems -/

/-- C1: the claimed arrival-date rollover rule is absent from the code.
For the failing input FlightDate = day 0, CRSDepTime = 2350,
CRSArrTime = 0020, the arrival minutes-after-midnight (20) are less
than the departure minutes (1430), yet `main` builds `crs_arr_ts_utc`
as `build_local_ts(FlightDate, CRSArrTime)` with no day added: the
arrival instant lands at minute 20 of day 0 — the departure date
itself, not the departure date plus one calendar day — and even
precedes the departure instant. -/
theorem c1_arrival_rollover_missing :
    hhmm_to_minutes 20 < hhmm_to_minutes 2350
    ∧ build_local_ts (some 0) (some 2350) utcTz = some 1430
    ∧ build_local_ts (some 0) (some 20) utcTz = some 20
    ∧ local_day 20 = 0
    ∧ (0 : Int) ≠ 0 + 1 := by
  refine ⟨by decide, by decide, by decide, by decide, by decide⟩

/-- C5: `compute_weather_severity` agrees with the specified formula
with its null-field defaults on every input (total function), and at
the all-null input the severity is 0. -/
theorem c5_severity_defaults (w v p c : Option ℚ) :
    compute_weather_severity w v p c = severity_spec w v p c
    ∧ compute_weather_severity none none none none = 0 := by
  constructor
  · rfl
  · norm_num [compute_weather_severity, clipQ]

/-- C9: the temporal normalizer is a total function that maps a
nonexistent or ambiguous local civil time (zero or at least two valid
offsets) to the null sentinel, maps an unparseable date or clock cell
to the null sentinel, and the nearest-time join treats a null-key row
as unmatched (null match, null weather fields). -/
theorem c9_dst_and_unparseable_sentinel (tz : TimeZoneMap) (d : Int)
    (h : Nat)
    (hlen : (tz.offsets (1440 * d + (hhmm_to_minutes h : Int))).length ≠ 1) :
    build_local_ts (some d) (some h) tz = none
    ∧ (∀ hh, build_local_ts none hh tz = none)
    ∧ (∀ dd, build_local_ts (some dd) none tz = none)
    ∧ (∀ (tol : Int) (W : List WeatherObs) (r : FlightRow), r.ts = none →
        (attach_row tol W r).matched = none
        ∧ (attach_row tol W r).tmpf = none) := by
  refine ⟨?_, fun hh => rfl, fun dd => rfl, fun tol W r hr => ?_⟩
  · have hbl : build_local_ts (some d) (some h) tz =
        tz_localize tz (1440 * d + (hhmm_to_minutes h : Int)) := rfl
    rw [hbl, tz_localize]
    rcases hoff : tz.offsets (1440 * d + (hhmm_to_minutes h : Int)) with
      _ | ⟨o, rest⟩
    · rfl
    · rcases rest with _ | ⟨o2, rest2⟩
      · exact absurd (by rw [hoff]; rfl) hlen
      · rfl
  · constructor
    · simp [attach_row, hr]
    · simp [attach_row, hr]

/-- Witness for C9: a concrete ambiguous local time (two offsets)
yields the null sentinel, and null keys stay unmatched downstream. -/
theorem c9_witness :
    build_local_ts (some 0) (some 130) ambTz = none
    ∧ (∀ hh, build_local_ts none hh ambTz = none)
    ∧ (∀ dd, build_local_ts (some dd) none ambTz = none)
    ∧ (∀ (tol : Int) (W : List WeatherObs) (r : FlightRow), r.ts = none →
        (attach_row tol W r).matched = none
        ∧ (attach_row tol W r).tmpf = none) :=
  c9_dst_and_unparseable_sentinel ambTz 0 130 (by decide)

/-- C3 counterexample: two telemetry records written in this order at
the same (entity, instant) grain; `sort_values` + `drop_duplicates`
(default `keep="first"`) keeps the FIRST-written record, not the
last-written one the claim asserts. -/
theorem c3_counterexample :
    sort_dedup c3rows = [⟨"a1b2c3", 0, some 1⟩]
    ∧ (⟨"a1b2c3", 0, some 1⟩ : StateRow) ≠ ⟨"a1b2c3", 0, some 2⟩ := by
  constructor
  · decide
  · decide

/-- C3 amended: deduplication keeps exactly one record per
(entity, instant) pair — the FIRST occurrence in input order (the sort
is stable, `drop_duplicates` keeps the first row): for every pair the
output restricted to that pair equals the first matching input row. -/
theorem c3_dedup_keeps_first (rows : List StateRow) (e : String) (t : Int) :
    (sort_dedup rows).filter (fun r => decide (state_key r = (e, t))) =
      (rows.filter (fun r => decide (state_key r = (e, t)))).take 1 := by
  unfold sort_dedup
  rw [dedup_first_by_filter state_key (e, t) (List.insertionSort stateLe rows)
    [], if_neg (by simp)]
  congr 1
  apply filter_insertionSort stateLe (fun r => decide (state_key r = (e, t)))
  intro x hx y hy hpx hpy
  have hx' : state_key x = (e, t) := by simpa using hpx
  have hy' : state_key y = (e, t) := by simpa using hpy
  have hxe : x.icao24 = e := congrArg Prod.fst hx'
  have hxt : x.time = t := congrArg Prod.snd hx'
  have hye : y.icao24 = e := congrArg Prod.fst hy'
  have hyt : y.time = t := congrArg Prod.snd hy'
  exact Or.inr ⟨hxe.trans hye.symm, le_of_eq (hxt.trans hyt.symm)⟩

/-- C7 counterexample: a key with a dated record written first and a
missing-date record written second.  `sort_values(..,
na_position="last")` puts the missing date after the dated record and
`drop_duplicates(keep="last")` then keeps the missing-date record —
not the most recent dated one the claim asserts. -/
theorem c7_counterexample :
    faa_dedup c7rows = [⟨"a1b2c3", none, "N200BB"⟩]
    ∧ (⟨"a1b2c3", some 5, "N100AA"⟩ : RegRecord) ∉ faa_dedup c7rows := by
  constructor
  · decide
  · decide

/-- C7 amended: per join key at most one registry record survives
`faa_dedup`; the survivor comes from the input and is maximal in the
(date ascending, missing-date-greatest) order — so it is the most
recent dated record only when the key has no missing-date record, a
missing-date record winning otherwise; the flight-side registry dedup
(`attach_registry`, `drop_duplicates` on `n_number`) keeps the first
occurrence with no recency ordering at all. -/
theorem c7_registry_dedup (rows : List RegRecord) (k : String) :
    ((faa_dedup rows).filter (fun r => decide (r.icao24 = k))).length =
      (if ∃ r ∈ rows, r.icao24 = k then 1 else 0)
    ∧ (∀ s, s ∈ faa_dedup rows → s.icao24 = k →
        s ∈ rows ∧ ∀ r' ∈ rows, r'.icao24 = k →
          dateLe r'.last_action_date s.last_action_date)
    ∧ (∀ (regs : List RegRow) (key : Option String),
        (dedup_first_by (fun g => g.n_number) [] regs).filter
            (fun g => decide (g.n_number = key)) =
          (regs.filter (fun g => decide (g.n_number = key))).take 1) := by
  have hfd : (faa_dedup rows).filter (fun r => decide (r.icao24 = k)) =
      ((List.insertionSort regLe rows).filter
        (fun r => decide (r.icao24 = k))).getLast?.toList :=
    dedup_last_by_filter (fun r => r.icao24) k
      (List.insertionSort regLe rows)
  refine ⟨?_, fun s hs hsk => ?_, fun regs key =>
    dedup_first_by_filter (fun g => g.n_number) key regs []⟩
  · rw [hfd]
    by_cases hex : ∃ r ∈ rows, r.icao24 = k
    · obtain ⟨r0, hr0, hk0⟩ := hex
      have hmem0 : r0 ∈ (List.insertionSort regLe rows).filter
          (fun r => decide (r.icao24 = k)) :=
        List.mem_filter.mpr
          ⟨(List.perm_insertionSort regLe rows).mem_iff.mpr hr0,
            by simp [hk0]⟩
      rcases hgl : ((List.insertionSort regLe rows).filter
          (fun r => decide (r.icao24 = k))).getLast? with _ | s
      · exact absurd (List.getLast?_eq_none_iff.mp hgl)
          (List.ne_nil_of_mem hmem0)
      · rw [if_pos ⟨r0, hr0, hk0⟩, hgl]
        rfl
    · rw [if_neg hex]
      have hempty : (List.insertionSort regLe rows).filter
          (fun r => decide (r.icao24 = k)) = [] := by
        rw [List.filter_eq_nil_iff]
        intro a ha
        simp only [decide_eq_true_eq]
        intro hak
        exact hex
          ⟨a, (List.perm_insertionSort regLe rows).mem_iff.mp ha, hak⟩
      rw [hempty]
      rfl
  · have hsf : s ∈ (faa_dedup rows).filter (fun r => decide (r.icao24 = k)) :=
      List.mem_filter.mpr ⟨hs, by simp [hsk]⟩
    rw [hfd] at hsf
    have hlast : ((List.insertionSort regLe rows).filter
        (fun r => decide (r.icao24 = k))).getLast? = some s := by
      rcases hgl : ((List.insertionSort regLe rows).filter
          (fun r => decide (r.icao24 = k))).getLast? with _ | s2
      · rw [hgl] at hsf
        simp at hsf
      · rw [hgl] at hsf
        simp at hsf
        rw [hsf]
        exact hgl
    have hmem2 : s ∈ (List.insertionSort regLe rows).filter
        (fun r => decide (r.icao24 = k)) :=
      List.mem_of_getLast?_eq_some hlast
    have hrows : s ∈ rows :=
      (List.perm_insertionSort regLe rows).mem_iff.mp
        (List.mem_of_mem_filter hmem2)
    refine ⟨hrows, fun r' hr' hrk => ?_⟩
    have hr'f : r' ∈ (List.insertionSort regLe rows).filter
        (fun r => decide (r.icao24 = k)) :=
      List.mem_filter.mpr
        ⟨(List.perm_insertionSort regLe rows).mem_iff.mpr hr',
          by simp [hrk]⟩
    have hpair : ((List.insertionSort regLe rows).filter
        (fun r => decide (r.icao24 = k))).Pairwise regLe :=
      List.Pairwise.sublist (List.filter_sublist _)
        (List.sorted_insertionSort regLe rows)
    rcases pairwise_rel_getLast hpair hlast r' hr'f with he | hrel
    · rw [he]
      exact dateLe_refl _
    · rcases hrel with hlt | ⟨_, hd⟩
      · have hkk : (k : String) < k := by
          have h2 := hlt
          rw [hrk, hsk] at h2
          exact h2
        exact absurd hkk (lt_irrefl k)
      · exact hd

/-- Witness for C7 at the concrete two-record registry. -/
theorem c7_witness :
    ((faa_dedup c7rows).filter
      (fun r => decide (r.icao24 = "a1b2c3"))).length =
      (if ∃ r ∈ c7rows, r.icao24 = "a1b2c3" then 1 else 0)
    ∧ (∀ s, s ∈ faa_dedup c7rows → s.icao24 = "a1b2c3" →
        s ∈ c7rows ∧ ∀ r' ∈ c7rows, r'.icao24 = "a1b2c3" →
          dateLe r'.last_action_date s.last_action_date)
    ∧ (∀ (regs : List RegRow) (key : Option String),
        (dedup_first_by (fun g => g.n_number) [] regs).filter
            (fun g => decide (g.n_number = key)) =
          (regs.filter (fun g => decide (g.n_number = key))).take 1) :=
  c7_registry_dedup c7rows "a1b2c3"

/-- C2 counterexample: one entity with samples at t = 0, 5, 10 s.
Under `resample("10s").transform`, the bins are the fixed intervals
0-10 s and 10-20 s, so the count column at the third point is 1, not
the 3 a trailing 10-second window ending at that point would give. -/
theorem c2_counterexample :
    resample_transform_count 10 c2rows = [2, 2, 1]
    ∧ (resample_transform_count 10 c2rows)[2]? = some 1
    ∧ (1 : Nat) ≠ 3 := by
  refine ⟨by decide, by decide, by decide⟩

/-- C2 amended: the windowed aggregator attaches to each row the
statistic over the rows of the same entity whose instants lie in the
fixed resample bin containing that row's instant — the aligned
half-open interval of width `w` starting at `bin_start` — not over a
trailing window ending at the row's own instant. -/
theorem c2_binned_window (w : Int) (hw : 0 < w) (rows : List StateRow)
    (i : Nat) (r : StateRow) (hr : rows[i]? = some r) :
    (resample_transform_count w rows)[i]? =
      some (count_stat (window_members rows r.icao24 (bin_start w r.time)
        (bin_start w r.time + w)))
    ∧ (resample_transform_var w rows)[i]? =
      some (sample_var (window_members rows r.icao24 (bin_start w r.time)
        (bin_start w r.time + w))) := by
  constructor
  · unfold resample_transform_count
    rw [List.getElem?_map, hr]
    simp [bin_members_eq_window hw rows r.icao24 r.time]
  · unfold resample_transform_var
    rw [List.getElem?_map, hr]
    simp [bin_members_eq_window hw rows r.icao24 r.time]

/-- Witness for C2 at the third concrete sample. -/
theorem c2_witness :
    (resample_transform_count 10 c2rows)[2]? =
      some (count_stat (window_members c2rows "a1b2c3" (bin_start 10 10)
        (bin_start 10 10 + 10)))
    ∧ (resample_transform_var 10 c2rows)[2]? =
      some (sample_var (window_members c2rows "a1b2c3" (bin_start 10 10)
        (bin_start 10 10 + 10))) :=
  c2_binned_window 10 (by decide) c2rows 2 ⟨"a1b2c3", 10, some 130⟩
    (by decide)

/-- C8 counterexample: a single-sample entity whose feature cell is
missing; the windowed count column is 0, not the 1 the claim asserts
(the standard-deviation column is null, as claimed). -/
theorem c8_counterexample :
    resample_transform_count 10 c8rows = [0]
    ∧ (0 : Nat) ≠ 1
    ∧ resample_transform_var 10 c8rows = [none] := by
  refine ⟨by decide, by decide, by decide⟩

/-- C8 amended: for an entity with a single row, every windowed
standard-deviation column is null (no variance computable from at most
one sample), and every windowed count column equals 1 when the field
value is present and 0 when it is missing. -/
theorem c8_single_point (w : Int) (rows : List StateRow) (i : Nat)
    (r : StateRow) (hr : rows[i]? = some r)
    (huniq : rows.filter (fun x => decide (x.icao24 = r.icao24)) = [r]) :
    (resample_transform_var w rows)[i]? = some none
    ∧ (resample_transform_count w rows)[i]? =
      some (if r.value.isSome then 1 else 0) := by
  have hbm : bin_members rows r.icao24 w r.time = [r.value] := by
    unfold bin_members
    have hsplit : rows.filter (fun x => decide (x.icao24 = r.icao24 ∧
        bin_start w x.time = bin_start w r.time)) =
        (rows.filter (fun x => decide (x.icao24 = r.icao24))).filter
          (fun x => decide (bin_start w x.time = bin_start w r.time)) := by
      rw [List.filter_filter]
      apply List.filter_congr
      intro a _
      rw [Bool.decide_and, Bool.and_comm]
    rw [hsplit, huniq]
    simp
  have hsv : sample_var [r.value] = none := by
    cases r.value <;> simp [sample_var]
  have hcs : count_stat [r.value] = if r.value.isSome then 1 else 0 := by
    cases r.value <;> simp [count_stat]
  constructor
  · unfold resample_transform_var
    rw [List.getElem?_map, hr]
    simp [hbm, hsv]
  · unfold resample_transform_count
    rw [List.getElem?_map, hr]
    simp [hbm, hcs]

/-- Witness for C8 at a concrete single-sample entity with a present
feature cell. -/
theorem c8_witness :
    (resample_transform_var 10 c8rows2)[0]? = some none
    ∧ (resample_transform_count 10 c8rows2)[0]? =
      some (if (some (7 : ℚ)).isSome then 1 else 0) :=
  c8_single_point 10 c8rows2 0 ⟨"deadbe", 0, some 7⟩ (by decide) (by decide)

/-- C4: when the nearest-time weather join returns a match, it is a
candidate of the anchor's key-group, its distance to the anchor is at
most the tolerance, and no other candidate of that key-group is
strictly closer; when every candidate's distance exceeds the
tolerance, the match is null and all candidate-sourced fields
(temperature, wind, visibility, ceiling) are null on the output row. -/
theorem c4_nearest_join (tol : Int) (W : List WeatherObs) (r : FlightRow)
    (t : Int) (ht : r.ts = some t) :
    (∀ o, (attach_row tol W r).matched = some o →
      ∃ t', (t', o) ∈ candidates W (normalize_upper r.station)
        ∧ |t' - t| ≤ tol
        ∧ ∀ p ∈ candidates W (normalize_upper r.station),
            |t' - t| ≤ |p.1 - t|)
    ∧ ((∀ p ∈ candidates W (normalize_upper r.station), tol < |p.1 - t|) →
        (attach_row tol W r).matched = none
        ∧ (attach_row tol W r).tmpf = none
        ∧ (attach_row tol W r).wind = none
        ∧ (attach_row tol W r).visibility = none
        ∧ (attach_row tol W r).ceiling_ft = none) := by
  have hmatched : (attach_row tol W r).matched =
      merge_asof_nearest tol W (normalize_upper r.station) t := by
    simp [attach_row, ht]
  constructor
  · intro o ho
    rw [hmatched, merge_asof_nearest] at ho
    rcases hni : nearest_in t (candidates W (normalize_upper r.station))
      with _ | c
    · rw [hni] at ho
      simp at ho
    · rw [hni] at ho
      have ho2 : (if |c.1 - t| ≤ tol then some c.2 else none) = some o := ho
      by_cases hc : |c.1 - t| ≤ tol
      · rw [if_pos hc] at ho2
        obtain ⟨hmem, _, hmin⟩ :=
          foldl_nearest_spec t (candidates W (normalize_upper r.station))
            none c hni
        have hcmem : c ∈ candidates W (normalize_upper r.station) := by
          rcases hmem with hm | hm
          · exact absurd hm (by simp)
          · exact hm
        obtain rfl : o = c.2 := (Option.some.inj ho2).symm
        exact ⟨c.1, by simpa using hcmem, hc, hmin⟩
      · rw [if_neg hc] at ho2
        exact absurd ho2 (by simp)
  · intro hfar
    have hm0 : merge_asof_nearest tol W (normalize_upper r.station) t =
        none := by
      rw [merge_asof_nearest]
      rcases hni : nearest_in t (candidates W (normalize_upper r.station))
        with _ | c
      · rfl
      · obtain ⟨hmem, _, _⟩ :=
          foldl_nearest_spec t (candidates W (normalize_upper r.station))
            none c hni
        have hcmem : c ∈ candidates W (normalize_upper r.station) := by
          rcases hmem with hm | hm
          · exact absurd hm (by simp)
          · exact hm
        show (if |c.1 - t| ≤ tol then some c.2 else none) = none
        rw [if_neg (not_le.mpr (hfar c hcmem))]
    have hmn : (attach_row tol W r).matched = none := by
      rw [hmatched]
      exact hm0
    refine ⟨hmn, ?_, ?_, ?_, ?_⟩
    · rw [show (attach_row tol W r).tmpf =
        ((attach_row tol W r).matched).bind (fun o => o.tmpf) from rfl, hmn]
      rfl
    · rw [show (attach_row tol W r).wind =
        ((attach_row tol W r).matched).bind (fun o => o.sknt) from rfl, hmn]
      rfl
    · rw [show (attach_row tol W r).visibility =
        ((attach_row tol W r).matched).bind (fun o => o.vsby) from rfl, hmn]
      rfl
    · rw [show (attach_row tol W r).ceiling_ft =
        ((attach_row tol W r).matched).bind (fun o => o.skyl1) from rfl, hmn]
      rfl

/-- Witness for C4 at a concrete anchor (instant 130, station BWI)
with one observation (instant 100) within the tolerance 120. -/
theorem c4_witness :
    (∀ o, (attach_row 120 c4weather c4flight).matched = some o →
      ∃ t', (t', o) ∈ candidates c4weather
          (normalize_upper c4flight.station)
        ∧ |t' - 130| ≤ 120
        ∧ ∀ p ∈ candidates c4weather (normalize_upper c4flight.station),
            |t' - 130| ≤ |p.1 - 130|)
    ∧ ((∀ p ∈ candidates c4weather (normalize_upper c4flight.station),
          120 < |p.1 - 130|) →
        (attach_row 120 c4weather c4flight).matched = none
        ∧ (attach_row 120 c4weather c4flight).tmpf = none
        ∧ (attach_row 120 c4weather c4flight).wind = none
        ∧ (attach_row 120 c4weather c4flight).visibility = none
        ∧ (attach_row 120 c4weather c4flight).ceiling_ft = none) :=
  c4_nearest_join 120 c4weather c4flight 130 rfl

/-- C10 counterexample: a flight row whose station cell is missing and
an observation whose station cell is missing, at the same instant.
`astype(str)` coerces both missing keys to the string NAN, the keys
match, and the row comes back with a non-null weather field — not with
all weather-sourced fields null as the claim asserts for null-key
rows. -/
theorem c10_counterexample :
    (attach_weather_nearest 120 c10flights c10weather).map
      (fun x => x.tmpf) = [some 50]
    ∧ (some (50 : ℚ)) ≠ none := by
  refine ⟨by decide, by decide⟩

/-- C10 amended: the nearest-time weather attachment preserves the
flight row set exactly (one output row per input row, in order); a row
whose join instant is null gets a null match and null weather fields;
a row whose station cell is null is keyed by the coerced string NAN
and gets a null match provided no observation's coerced station is
NAN (a null-station observation also coerces to NAN and would
match). -/
theorem c10_row_preservation (tol : Int) (fl : List FlightRow)
    (W : List WeatherObs) :
    (attach_weather_nearest tol fl W).map (fun x => x.flight) = fl
    ∧ (∀ r : FlightRow, r.ts = none →
        (attach_row tol W r).matched = none
        ∧ (attach_row tol W r).tmpf = none
        ∧ (attach_row tol W r).wind = none
        ∧ (attach_row tol W r).visibility = none
        ∧ (attach_row tol W r).ceiling_ft = none)
    ∧ (∀ (r : FlightRow) (t : Int), r.ts = some t → r.station = none →
        (∀ o ∈ W, normalize_upper o.station ≠ "NAN") →
        (attach_row tol W r).matched = none) := by
  refine ⟨?_, fun r hr => ?_, fun r t ht hst hno => ?_⟩
  · unfold attach_weather_nearest
    rw [List.map_map]
    have hid : ((fun x : EnrichedRow => x.flight) ∘ attach_row tol W) =
        fun r => r := by
      funext r
      rfl
    rw [hid]
    exact List.map_id fl
  · refine ⟨by simp [attach_row, hr], ?_, ?_, ?_, ?_⟩ <;>
      simp [attach_row, hr]
  · have hm : (attach_row tol W r).matched =
        merge_asof_nearest tol W (normalize_upper r.station) t := by
      simp [attach_row, ht]
    have hkey : normalize_upper r.station = "NAN" := by
      rw [hst]
      rfl
    have hcand : candidates W (normalize_upper r.station) = [] := by
      rw [hkey]
      unfold candidates
      rw [List.filterMap_eq_nil_iff]
      intro o ho
      cases hv : o.valid_ts with
      | none => rfl
      | some tv =>
          simp only [hv, Option.some_bind]
          rw [if_neg (hno o ho)]
    rw [hm, merge_asof_nearest, hcand]
    rfl

/-- Witness for C10 at a concrete one-row frame whose join instant is
null. -/
theorem c10_witness :
    (attach_weather_nearest 120 [⟨some "BWI", none⟩] c4weather).map
      (fun x => x.flight) = [⟨some "BWI", none⟩]
    ∧ (∀ r : FlightRow, r.ts = none →
        (attach_row 120 c4weather r).matched = none
        ∧ (attach_row 120 c4weather r).tmpf = none
        ∧ (attach_row 120 c4weather r).wind = none
        ∧ (attach_row 120 c4weather r).visibility = none
        ∧ (attach_row 120 c4weather r).ceiling_ft = none)
    ∧ (∀ (r : FlightRow) (t : Int), r.ts = some t → r.station = none →
        (∀ o ∈ c4weather, normalize_upper o.station ≠ "NAN") →
        (attach_row 120 c4weather r).matched = none) :=
  c10_row_preservation 120 [⟨some "BWI", none⟩] c4weather

/-- C6 counterexample: a flight whose tail number matches no registry
row.  The registry columns of its output row are typed nulls — not the
sentinel string the claim asserts; no sentinel filling exists in
`attach_registry`. -/
theorem c6_counterexample :
    (attach_registry c6flights c6reg).map
      (fun pr => pr.2.bind (fun g => g.aircraft_type)) = [none]
    ∧ (none : Option String) ≠ some "Registry Not Found" := by
  refine ⟨by decide, by decide⟩

/-- C6 amended: the registry join is left-outer — the output keeps
every flight row in order with all its fields — and a flight row whose
normalized tail number matches no normalized registry key is paired
with a null registry record (its registry-sourced columns are typed
nulls; no sentinel string is ever written). -/
theorem c6_registry_left_outer (flights : List FlightRegRow)
    (reg : List RegRow) (f : FlightRegRow)
    (hnm : ∀ g ∈ reg, normalize_upper g.n_number ≠
      normalize_upper f.tail_number) :
    (attach_registry flights reg).map Prod.fst = flights
    ∧ registry_lookup reg f = none := by
  constructor
  · unfold attach_registry
    rw [List.map_map]
    have hid : (Prod.fst ∘ fun fr : FlightRegRow =>
        (fr, registry_lookup reg fr)) = fun fr => fr := by
      funext fr
      rfl
    rw [hid]
    exact List.map_id flights
  · unfold registry_lookup
    rw [List.find?_eq_none]
    intro g hg
    have hgn : g ∈ (reg.map (fun g0 =>
        { g0 with n_number := some (normalize_upper g0.n_number) })) :=
      dedup_first_by_subset (fun g0 => g0.n_number) _ [] g hg
    obtain ⟨g0, hg0, rfl⟩ := List.mem_map.mp hgn
    simp only [decide_eq_true_eq]
    intro hcontra
    exact hnm g0 hg0 (Option.some.inj hcontra)

/-- Witness for C6 at the concrete unmatched flight. -/
theorem c6_witness :
    (attach_registry c6flights c6reg).map Prod.fst = c6flights
    ∧ registry_lookup c6reg ⟨some "N123AB"⟩ = none :=
  c6_registry_left_outer c6flights c6reg ⟨some "N123AB"⟩ (by decide)
